import Mathlib

/-!
Shallow embedding of the `envkey` vault engine (crates `crypto.rs`, `model.rs`,
`identity.rs`, `cli.rs`, and the storage module modelled from the spec).
External crates (the `age` x25519 hybrid encryption, base64, UTF-8 validation)
are modelled at the level of their documented contract: ciphertext strings are
partitioned by how the decoding pipeline treats them.
-/

namespace Envkey

/-!  ## Ordered string maps (model of Rust `BTreeMap<String, _>`)  -/

/-- Lexicographic strict order on character lists, the comparison
`BTreeMap<String, _>` keys are ordered by. -/
def charListLt : List Char → List Char → Bool
  | [], [] => false
  | [], _ :: _ => true
  | _ :: _, [] => false
  | a :: as, b :: bs =>
    if a.toNat < b.toNat then true
    else if b.toNat < a.toNat then false
    else charListLt as bs

/-- Association list with unique keys kept in ascending key order, the model of
`BTreeMap<String, α>`. -/
abbrev SMap (α : Type) := List (String × α)

def smapFind? {α : Type} : SMap α → String → Option α
  | [], _ => none
  | (k, v) :: rest, key => if k = key then some v else smapFind? rest key

/-- `BTreeMap::contains_key`. -/
def smapContains {α : Type} (m : SMap α) (k : String) : Bool :=
  (smapFind? m k).isSome

/-- `BTreeMap::insert`: replaces the value at an existing key, otherwise inserts
at the sorted position. -/
def smapInsert {α : Type} : SMap α → String → α → SMap α
  | [], key, v => [(key, v)]
  | (k, w) :: rest, key, v =>
    if charListLt key.data k.data then (key, v) :: (k, w) :: rest
    else if key = k then (key, v) :: rest
    else (k, w) :: smapInsert rest key v

/-- `map.entry(k).or_default()` read side: the value at `k`, defaulting. -/
def smapGetD {α : Type} (m : SMap α) (k : String) (d : α) : α :=
  (smapFind? m k).getD d

/-- `BTreeMap::values` (in stored order). -/
def smapValues {α : Type} (m : SMap α) : List α :=
  m.map Prod.snd

/-!  ## Model of the external `age` crate and text encodings  -/

/-- An x25519 recipient as parsed from its bech32 `age1...` encoding. -/
structure Recipient where
  enc : String
deriving DecidableEq

/-- An x25519 identity (private key).  Its public key is derived
deterministically and injectively. -/
structure X25519Identity where
  key : String
deriving DecidableEq

/-- `x25519::Identity::to_public`: derives the recipient encoding from the
private key (modelled injectively; every derived encoding is a valid
recipient string). -/
def X25519Identity.toPublic (i : X25519Identity) : Recipient :=
  ⟨"age1" ++ i.key⟩

def isPrefixList : List Char → List Char → Bool
  | [], _ => true
  | _ :: _, [] => false
  | a :: as, b :: bs => a = b && isPrefixList as bs

/-- `x25519::Recipient::from_str`: a pubkey string parses as a recipient
exactly when it is a well-formed `age1...` encoding (modelled as carrying the
marker prefix). -/
def parse_x25519_recipient (s : String) : Option Recipient :=
  if isPrefixList "age1".data s.data then some ⟨s⟩ else none

/-- A byte string as seen by `String::from_utf8`: either the UTF-8 encoding of
some text, or bytes that are not valid UTF-8. -/
inductive Bytes where
  | utf8 (s : String)
  | invalid (tag : Nat)
deriving DecidableEq

/-- The bytes obtained after base64-decoding a ciphertext string: either a
well-formed age envelope (recipient stanzas plus authenticated payload), or
bytes that fail header parsing / authentication (tampered or garbage). -/
inductive AgeBlob where
  | envelope (recipients : List Recipient) (payload : Bytes)
  | corrupt (tag : Nat)
deriving DecidableEq

/-- A text string handed to the decryption pipeline, partitioned by how
base64 decoding treats it: valid base64 of some byte blob, or malformed. -/
inductive CiphertextText where
  | encoded (blob : AgeBlob)
  | malformed (tag : Nat)
deriving DecidableEq

/-!  ## `error.rs`  -/

/-- `EnvkeyError` (`error.rs`): a message, a wrapped IO error, or a wrapped
YAML error. -/
inductive EnvkeyError where
  | message (msg : String)
  | ioErr (tag : Nat)
  | yaml (tag : Nat)
deriving DecidableEq

abbrev EResult (α : Type) := Except EnvkeyError α

/-!  ## `crypto.rs`  -/

/-- The fixed prefix `decrypt_value` prepends to every authenticated-decryption
failure (`"failed to decrypt value: {err}"`): one error arm in `crypto.rs`,
with the cause-specific library error Display appended. -/
def decryptErrPrefix : String := "failed to decrypt value: "

/-- Model of the `age` crate's `DecryptError` Display when the identity opens
no recipient stanza (`NoMatchingKeys`). -/
def ageNoMatchDetail : String := "no matching keys found"

/-- Model of the `age` crate's `DecryptError` Display when the blob is not a
well-formed envelope or fails authentication (`DecryptionFailed` / bad MAC) —
a different text than the wrong-identity cause. -/
def ageCorruptDetail : String := "decryption failed"

/-- `"ciphertext is not valid base64: {err}"`. -/
def badB64Msg : String := "ciphertext is not valid base64: invalid encoding"

/-- `"decrypted value is not valid UTF-8: {err}"`. -/
def badUtf8Msg : String := "decrypted value is not valid UTF-8: invalid byte"

/-- `crypto.rs::encrypt_value`: refuses an empty recipient list, otherwise
builds the multi-recipient envelope over the plaintext bytes and base64-encodes
it.  (Writing into an in-memory buffer with a non-empty recipient set does not
fail, so the encryptor construction and write steps are modelled as
succeeding.) -/
def encrypt_value (plaintext : String) (recipients : List Recipient) :
    EResult CiphertextText :=
  if recipients.isEmpty then
    .error (.message "cannot encrypt without at least one recipient")
  else
    .ok (.encoded (.envelope recipients (.utf8 plaintext)))

/-- `crypto.rs::decrypt_value`: base64-decode (distinct error if malformed),
then authenticated decryption (one error arm with the fixed
`failed to decrypt value: ` prefix, but the appended library detail differs
between a wrong identity and a corrupt/tampered blob), then UTF-8 validation
(distinct error if the plaintext bytes are not valid text). -/
def decrypt_value (ct : CiphertextText) (identity : X25519Identity) :
    EResult String :=
  match ct with
  | .malformed _ => .error (.message badB64Msg)
  | .encoded (.corrupt _) =>
    .error (.message (decryptErrPrefix ++ ageCorruptDetail))
  | .encoded (.envelope recips payload) =>
    if identity.toPublic ∈ recips then
      match payload with
      | .utf8 s => .ok s
      | .invalid _ => .error (.message badUtf8Msg)
    else
      .error (.message (decryptErrPrefix ++ ageNoMatchDetail))

/-!  ## `model.rs`  -/

def FORMAT_VERSION : Nat := 1

inductive Role where
  | admin
  | member
  | ci
  | readonly
deriving DecidableEq

structure TeamMember where
  pubkey : String
  role : Role
  added : String
  environments : Option (List String)
deriving DecidableEq

structure SecretEntry where
  value : CiphertextText
  set_by : String
  modified : String
deriving DecidableEq

structure EnvkeyFile where
  version : Nat
  team : SMap TeamMember
  environments : SMap (SMap SecretEntry)
deriving DecidableEq

/-- `EnvkeyFile::new`. -/
def EnvkeyFile.new (owner_name owner_pubkey now_date : String) : EnvkeyFile :=
  { version := FORMAT_VERSION
    team := smapInsert [] owner_name
      { pubkey := owner_pubkey, role := .admin, added := now_date,
        environments := none }
    environments := smapInsert [] "default" [] }

/-- `EnvkeyFile::ensure_supported_version`. -/
def EnvkeyFile.ensure_supported_version (f : EnvkeyFile) : EResult Unit :=
  if f.version ≠ FORMAT_VERSION then
    .error (.message ("unsupported .envkey version: " ++ toString f.version ++
      " (supported: " ++ toString FORMAT_VERSION ++ ")"))
  else
    .ok ()

/-- `EnvkeyFile::default_env_mut`
(`self.environments.entry("default").or_default()`): returns the document with
a `"default"` environment guaranteed present, together with that environment's
current contents (the target of the borrowed `&mut`). -/
def EnvkeyFile.default_env_mut (f : EnvkeyFile) :
    EnvkeyFile × SMap SecretEntry :=
  let env := smapGetD f.environments "default" []
  ({ f with environments := smapInsert f.environments "default" env }, env)

/-- `EnvkeyFile::default_env`. -/
def EnvkeyFile.default_env (f : EnvkeyFile) : Option (SMap SecretEntry) :=
  smapFind? f.environments "default"

/-!  ## `identity.rs`  -/

/-- The identity file on disk, partitioned by how `load_identity_from` treats
it: absent, present but whitespace-only, present but not parseable as an
x25519 private key, or holding a valid key. -/
inductive IdentityFile where
  | missing
  | blank
  | invalid (tag : Nat)
  | valid (id : X25519Identity)
deriving DecidableEq

/-- `IdentityBundle` (path field omitted: it is only echoed in messages). -/
structure IdentityBundle where
  identity : X25519Identity
  recipient : Recipient
deriving DecidableEq

/-- `identity.rs::identity_exists` (`path.is_file()`). -/
def identity_exists : IdentityFile → Bool
  | .missing => false
  | _ => true

/-- `identity.rs::load_identity_from`: read (fails when missing), trim, reject
empty, parse the private key, derive the public key. -/
def load_identity_from : IdentityFile → EResult IdentityBundle
  | .missing => .error (.message "failed to read identity: no such file")
  | .blank => .error (.message "identity file is empty")
  | .invalid _ => .error (.message "invalid identity in file")
  | .valid id => .ok { identity := id, recipient := id.toPublic }

/-- `identity.rs::load_or_generate_identity`: on `force` or a missing file,
generate a fresh keypair, write it (`generate_identity_at`, modelled by the
`fresh` parameter standing for the random keypair and the returned
`IdentityFile` state), else load the existing one.  Returns the bundle, the
`was_generated` flag, and the resulting identity-file state. -/
def load_or_generate_identity (f : IdentityFile) (force : Bool)
    (fresh : X25519Identity) : EResult (IdentityBundle × Bool × IdentityFile) :=
  if force || !(identity_exists f) then
    .ok ({ identity := fresh, recipient := fresh.toPublic }, true, .valid fresh)
  else
    match load_identity_from f with
    | .error e => .error e
    | .ok b => .ok (b, false, f)

/-!  ## Storage module (not present under `src/`)  -/

/-- The `.envkey` file contents, partitioned by the YAML parse: a document the
structured format accepts, or malformed text. -/
inductive DocFile where
  | parsed (doc : EnvkeyFile)
  | malformed (tag : Nat)
deriving DecidableEq

/-- Modelled from the spec: `storage.rs::read_envkey` is not among the
provided sources.  Per §4.4 it parses the structured text format, failing with
a distinct error when the text is not parseable (the integration test pins the
message `"invalid .envkey YAML"`), and distinguishes that from a document that
parses but fails the version guard, which per §8 rejects unsupported versions
before any team/environment data is used. -/
def read_envkey (df : DocFile) : EResult EnvkeyFile :=
  match df with
  | .malformed _ => .error (.message "invalid .envkey YAML: parse error")
  | .parsed d =>
    match d.ensure_supported_version with
    | .error e => .error e
    | .ok _ => .ok d

/-!  ## `cli.rs`  -/

/-- The character iteration of `validate_secret_key` (`chars.next()` followed
by `chars.all(..)`); `key` is carried only for the error messages. -/
def validate_key_chars (key : String) : List Char → EResult Unit
  | [] => .error (.message "secret key cannot be empty")
  | first :: rest =>
    if !(first = '_' || ('A' ≤ first && first ≤ 'Z')) then
      .error (.message ("invalid secret key `" ++ key ++
        "`: must start with A-Z or _"))
    else if !(rest.all fun c =>
        c = '_' || ('A' ≤ c && c ≤ 'Z') || ('0' ≤ c && c ≤ '9')) then
      .error (.message ("invalid secret key `" ++ key ++
        "`: use only A-Z, 0-9, _"))
    else
      .ok ()

/-- `cli.rs::validate_secret_key`. -/
def validate_secret_key (key : String) : EResult Unit :=
  if key.toList.isEmpty then
    .error (.message "secret key cannot be empty")
  else
    validate_key_chars key key.toList

/-- `cli.rs::require_m1_env`. -/
def require_m1_env (env_name : String) : EResult Unit :=
  if env_name ≠ "default" then
    .error (.message ("M1 supports only default environment; got `" ++
      env_name ++ "`"))
  else
    .ok ()

/-- The per-member step of `parse_recipients_from_team`. -/
def parse_team_member (m : TeamMember) : EResult Recipient :=
  match parse_x25519_recipient m.pubkey with
  | some r => .ok r
  | none => .error (.message ("invalid team public key " ++ m.pubkey ++
      ": parse error"))

/-- `collect::<Result<Vec<_>>>` over the team values: stops at the first
parse failure. -/
def collect_recipients : List TeamMember → EResult (List Recipient)
  | [] => .ok []
  | m :: rest =>
    match parse_team_member m with
    | .error e => .error e
    | .ok r =>
      match collect_recipients rest with
      | .error e => .error e
      | .ok rs => .ok (r :: rs)

/-- `cli.rs::parse_recipients_from_team`. -/
def parse_recipients_from_team (f : EnvkeyFile) : EResult (List Recipient) :=
  collect_recipients (smapValues f.team)

/-- The mutable per-command state a CLI command touches: the `.envkey` file in
the working directory (or `none` when absent) and the identity file. -/
structure VaultState where
  envkey : Option DocFile
  identityFile : IdentityFile
deriving DecidableEq

/-- Result of one command: the final on-disk state plus either the printed
lines or the error that aborted it. -/
structure CmdOutcome where
  state : VaultState
  result : EResult (List String)

/-- `cli.rs::cmd_init`.  `username` models `detect_username()`, `fresh` the
random keypair `generate_identity_at` would create, `today` the value of
`now_date()`. -/
def cmd_init (force : Bool) (st : VaultState) (username : String)
    (fresh : X25519Identity) (today : String) : CmdOutcome :=
  if force && st.envkey.isSome then
    { state := st
      result := .error (.message
        "--force is blocked when .envkey already exists; remove .envkey first in M1") }
  else
    match load_or_generate_identity st.identityFile force fresh with
    | .error e => { state := st, result := .error e }
    | .ok (bundle, generated, idFile) =>
      let line1 := if generated then "✓ Generated identity key"
        else "✓ Using existing identity key"
      let pubLine := "✓ Public key: " ++ bundle.recipient.enc
      match st.envkey with
      | some df =>
        match read_envkey df with
        | .error e =>
          { state := { st with identityFile := idFile }, result := .error e }
        | .ok file =>
          if !(smapContains file.team username) then
            let tm : TeamMember :=
              { pubkey := bundle.recipient.enc, role := .admin, added := today,
                environments := none }
            let file' := { file with team := smapInsert file.team username tm }
            { state := { envkey := some (.parsed file'), identityFile := idFile }
              result := .ok [line1,
                "✓ Added " ++ username ++ " as admin in existing .envkey",
                pubLine] }
          else
            { state := { st with identityFile := idFile }
              result := .ok [line1, "✓ .envkey already exists", pubLine] }
      | none =>
        let file := EnvkeyFile.new username bundle.recipient.enc today
        { state := { envkey := some (.parsed file), identityFile := idFile }
          result := .ok [line1, "✓ Created .envkey with you as admin", pubLine] }

/-- The success line `cmd_set` prints. -/
def encryptedLine (key : String) (recipients : List Recipient)
    (env_name : String) : String :=
  "✓ Encrypted " ++ key ++ " for " ++ toString recipients.length ++
    " recipient" ++ (if recipients.length = 1 then "" else "s") ++
    " (" ++ env_name ++ ")"

/-- The failure-free prefix of `cmd_set`: every step up to (not including) the
write, each `?` propagating its error with the state untouched. -/
def cmd_set_pre (env_name key value : String) (st : VaultState) :
    EResult (EnvkeyFile × IdentityBundle × List Recipient × CiphertextText) :=
  match require_m1_env env_name with
  | .error e => .error e
  | .ok _ =>
    match validate_secret_key key with
    | .error e => .error e
    | .ok _ =>
      match st.envkey with
      | none => .error (.message
          "missing .envkey in current directory; run `envkey init` first")
      | some df =>
        match read_envkey df with
        | .error e => .error e
        | .ok file =>
          match load_identity_from st.identityFile with
          | .error e => .error e
          | .ok bundle =>
            match parse_recipients_from_team file with
            | .error e => .error e
            | .ok recipients =>
              if recipients.isEmpty then
                .error (.message
                  "no team recipients found in .envkey; cannot encrypt")
              else
                match encrypt_value value recipients with
                | .error e => .error e
                | .ok encrypted => .ok (file, bundle, recipients, encrypted)

/-- The document mutation `cmd_set` performs:
`file.default_env_mut().insert(key, SecretEntry { .. })`. -/
def set_update (file : EnvkeyFile) (key : String) (encrypted : CiphertextText)
    (username now : String) : EnvkeyFile :=
  let fm := file.default_env_mut
  let entry : SecretEntry :=
    { value := encrypted, set_by := username, modified := now }
  { fm.1 with environments :=
      smapInsert fm.1.environments "default" (smapInsert fm.2 key entry) }

/-- `cli.rs::cmd_set`.  `username` models `detect_username()`, `now` the value
of `now_timestamp()`.  After the atomic write it re-reads the fresh entry from
the in-memory document and decrypts it with the current identity as a
self-check; a failure there aborts the command but the write has happened. -/
def cmd_set (env_name key : String) (value : String) (username now : String)
    (st : VaultState) : CmdOutcome :=
  match cmd_set_pre env_name key value st with
  | .error e => { state := st, result := .error e }
  | .ok (file, bundle, recipients, encrypted) =>
    let file' := set_update file key encrypted username now
    let st' : VaultState := { st with envkey := some (.parsed file') }
    match file'.default_env with
    | none =>
      { state := st'
        result := .error (.message "internal error: secret missing after write") }
    | some env =>
      match smapFind? env key with
      | none =>
        { state := st'
          result := .error (.message "internal error: secret missing after write") }
      | some written =>
        match decrypt_value written.value bundle.identity with
        | .error e => { state := st', result := .error e }
        | .ok _ =>
          { state := st'
            result := .ok [encryptedLine key recipients env_name] }

/-- `cli.rs::cmd_get`. -/
def cmd_get (env_name key : String) (st : VaultState) : CmdOutcome :=
  let r : EResult (List String) :=
    match require_m1_env env_name with
    | .error e => .error e
    | .ok _ =>
      match st.envkey with
      | none => .error (.message
          "missing .envkey in current directory; run `envkey init` first")
      | some df =>
        match read_envkey df with
        | .error e => .error e
        | .ok file =>
          match load_identity_from st.identityFile with
          | .error e => .error e
          | .ok bundle =>
            match file.default_env with
            | none => .error (.message
                "default environment not found in .envkey")
            | some env =>
              match smapFind? env key with
              | none => .error (.message ("secret key not found: " ++ key))
              | some entry =>
                match decrypt_value entry.value bundle.identity with
                | .error e => .error e
                | .ok plaintext => .ok [plaintext]
  { state := st, result := r }

/-!  ## Helper lemmas  -/

theorem require_m1_env_default : require_m1_env "default" = .ok () := rfl

theorem load_identity_valid (id : X25519Identity) :
    load_identity_from (.valid id) = .ok ⟨id, id.toPublic⟩ := rfl

theorem load_or_generate_valid (id fresh : X25519Identity) :
    load_or_generate_identity (.valid id) false fresh =
      .ok (⟨id, id.toPublic⟩, false, .valid id) := rfl

theorem read_envkey_parsed (f : EnvkeyFile) (hv : f.version = FORMAT_VERSION) :
    read_envkey (.parsed f) = .ok f := by
  simp [read_envkey, EnvkeyFile.ensure_supported_version, hv]

theorem smapFind_insert_self {α : Type} (m : SMap α) (k : String) (v : α) :
    smapFind? (smapInsert m k v) k = some v := by
  induction m with
  | nil => simp [smapInsert, smapFind?]
  | cons hd tl ih =>
    obtain ⟨k', w⟩ := hd
    cases h1 : charListLt k.data k'.data with
    | true => simp [smapInsert, h1, smapFind?]
    | false =>
      by_cases h2 : k = k'
      · subst h2
        simp [smapInsert, h1, smapFind?]
      · have h3 : ¬ k' = k := fun h => h2 h.symm
        simp [smapInsert, h1, h2, smapFind?, h3, ih]

theorem smapContains_insert_self {α : Type} (m : SMap α) (k : String) (v : α) :
    smapContains (smapInsert m k v) k = true := by
  simp [smapContains, smapFind_insert_self]

theorem collect_recipients_invalid (l : List TeamMember) (m : TeamMember)
    (hm : m ∈ l) (hp : parse_x25519_recipient m.pubkey = none) :
    ∃ m', m' ∈ l ∧ parse_x25519_recipient m'.pubkey = none ∧
      collect_recipients l = .error (.message
        ("invalid team public key " ++ m'.pubkey ++ ": parse error")) := by
  induction l with
  | nil => cases hm
  | cons hd tl ih =>
    cases hp' : parse_x25519_recipient hd.pubkey with
    | none =>
      refine ⟨hd, List.mem_cons_self _ _, hp', ?_⟩
      simp [collect_recipients, parse_team_member, hp']
    | some r =>
      have hm' : m ∈ tl := by
        rcases List.mem_cons.mp hm with h | h
        · subst h
          rw [hp] at hp'
          cases hp'
        · exact h
      obtain ⟨m', h1, h2, h3⟩ := ih hm'
      refine ⟨m', List.mem_cons_of_mem _ h1, h2, ?_⟩
      simp [collect_recipients, parse_team_member, hp', h3]

theorem cmd_set_pre_run (file : EnvkeyFile) (id : X25519Identity)
    (key value : String) (rs : List Recipient)
    (hv : file.version = FORMAT_VERSION)
    (hk : validate_secret_key key = .ok ())
    (hr : parse_recipients_from_team file = .ok rs)
    (hne : rs ≠ []) :
    cmd_set_pre "default" key value ⟨some (.parsed file), .valid id⟩ =
      .ok (file, ⟨id, id.toPublic⟩, rs,
        .encoded (.envelope rs (.utf8 value))) := by
  cases rs with
  | nil => exact absurd rfl hne
  | cons r rs' =>
    simp [cmd_set_pre, require_m1_env_default, hk, read_envkey_parsed file hv,
      load_identity_valid, hr, encrypt_value]

theorem cmd_set_run (file : EnvkeyFile) (id : X25519Identity)
    (key value username now : String) (rs : List Recipient)
    (hv : file.version = FORMAT_VERSION)
    (hk : validate_secret_key key = .ok ())
    (hr : parse_recipients_from_team file = .ok rs)
    (hne : rs ≠ []) :
    cmd_set "default" key value username now ⟨some (.parsed file), .valid id⟩ =
      { state := ⟨some (.parsed (set_update file key
          (.encoded (.envelope rs (.utf8 value))) username now)), .valid id⟩
        result := if id.toPublic ∈ rs
          then .ok [encryptedLine key rs "default"]
          else .error (.message (decryptErrPrefix ++ ageNoMatchDetail)) } := by
  have hpre := cmd_set_pre_run file id key value rs hv hk hr hne
  by_cases hmem : id.toPublic ∈ rs
  · simp [cmd_set, hpre, set_update, EnvkeyFile.default_env,
      smapFind_insert_self, decrypt_value, hmem]
  · simp [cmd_set, hpre, set_update, EnvkeyFile.default_env,
      smapFind_insert_self, decrypt_value, hmem]

theorem cmd_init_existing_run (file : EnvkeyFile) (id fresh : X25519Identity)
    (username today : String) (hv : file.version = FORMAT_VERSION) :
    cmd_init false ⟨some (.parsed file), .valid id⟩ username fresh today =
      if smapContains file.team username then
        { state := ⟨some (.parsed file), .valid id⟩
          result := .ok ["✓ Using existing identity key",
            "✓ .envkey already exists", "✓ Public key: " ++ id.toPublic.enc] }
      else
        { state := ⟨some (.parsed { file with team := smapInsert file.team username ⟨id.toPublic.enc, Role.admin, today, none⟩ }), .valid id⟩
          result := .ok ["✓ Using existing identity key",
            "✓ Added " ++ username ++ " as admin in existing .envkey",
            "✓ Public key: " ++ id.toPublic.enc] } := by
  cases hc : smapContains file.team username with
  | false =>
    simp [cmd_init, load_or_generate_valid, read_envkey_parsed file hv, hc]
  | true =>
    simp [cmd_init, load_or_generate_valid, read_envkey_parsed file hv, hc]

/-!  ## Claim theorems  -/

/-- C1: for every plaintext `P` and recipient list `R`, and every identity
whose public key is one of the recipients in `R`, encryption succeeds and
decrypting its output with that identity succeeds and returns exactly `P`.
(Membership of the public key in `R` forces `R` non-empty.) -/
theorem C1_roundtrip (p : String) (rs : List Recipient) (i : X25519Identity)
    (h : i.toPublic ∈ rs) :
    ∃ ct, encrypt_value p rs = .ok ct ∧ decrypt_value ct i = .ok p := by
  cases rs with
  | nil => cases h
  | cons r rs' =>
    refine ⟨.encoded (.envelope (r :: rs') (.utf8 p)), ?_, ?_⟩
    · simp [encrypt_value]
    · simp [decrypt_value, h]

theorem C1_roundtrip_witness :
    ∃ ct, encrypt_value "super-secret" [⟨"age1k"⟩] = .ok ct ∧
      decrypt_value ct ⟨"k"⟩ = .ok "super-secret" :=
  C1_roundtrip "super-secret" [⟨"age1k"⟩] ⟨"k"⟩ (by decide)

/-- C2 counterexample: a wrong identity and a tampered/corrupt ciphertext do
not produce an identical message — `crypto.rs` formats the library error into
`"failed to decrypt value: {err}"`, and the library detail differs between
the two causes, so only the kind prefix is shared. -/
theorem C2_counterexample :
    decrypt_value (.encoded (.envelope [⟨"age1bobkey"⟩] (.utf8 "v")))
        ⟨"alicekey"⟩ =
      .error (.message (decryptErrPrefix ++ ageNoMatchDetail)) ∧
    decrypt_value (.encoded (.corrupt 0)) ⟨"alicekey"⟩ =
      .error (.message (decryptErrPrefix ++ ageCorruptDetail)) ∧
    decryptErrPrefix ++ ageNoMatchDetail ≠
      decryptErrPrefix ++ ageCorruptDetail :=
  ⟨rfl, rfl, by decide⟩

/-- C2 amended: `decrypt_value` fails with three mutually distinct,
user-distinguishable error kinds checked in pipeline order — bad base64
encoding first, then authenticated-decryption failure, then invalid UTF-8 —
and succeeds exactly when all three checks pass.  Both decryption-failure
causes (identity opens no stanza; corrupt/tampered blob) go through the one
`failed to decrypt value: ` arm, but the appended library detail differs
between them, so their full messages are distinct, not identical. -/
theorem C2_decrypt_error_kinds (i : X25519Identity) :
    (∀ t, decrypt_value (.malformed t) i = .error (.message badB64Msg))
    ∧ (∀ t, decrypt_value (.encoded (.corrupt t)) i =
        .error (.message (decryptErrPrefix ++ ageCorruptDetail)))
    ∧ (∀ rs payload, i.toPublic ∉ rs →
        decrypt_value (.encoded (.envelope rs payload)) i =
          .error (.message (decryptErrPrefix ++ ageNoMatchDetail)))
    ∧ (∀ rs t, i.toPublic ∈ rs →
        decrypt_value (.encoded (.envelope rs (.invalid t))) i =
          .error (.message badUtf8Msg))
    ∧ (badB64Msg ≠ decryptErrPrefix ++ ageCorruptDetail
        ∧ badB64Msg ≠ decryptErrPrefix ++ ageNoMatchDetail
        ∧ badB64Msg ≠ badUtf8Msg
        ∧ decryptErrPrefix ++ ageCorruptDetail ≠ badUtf8Msg
        ∧ decryptErrPrefix ++ ageNoMatchDetail ≠ badUtf8Msg
        ∧ decryptErrPrefix ++ ageNoMatchDetail ≠
            decryptErrPrefix ++ ageCorruptDetail)
    ∧ (∀ ct, (∃ s, decrypt_value ct i = .ok s) ↔
        ∃ rs p, ct = .encoded (.envelope rs (.utf8 p)) ∧ i.toPublic ∈ rs) := by
  refine ⟨fun t => rfl, fun t => rfl, ?_, ?_, ?_, ?_⟩
  · intro rs payload hmem
    simp [decrypt_value, hmem]
  · intro rs t hmem
    simp [decrypt_value, hmem]
  · refine ⟨?_, ?_, ?_, ?_, ?_, ?_⟩ <;> decide
  · intro ct
    constructor
    · rintro ⟨s, hs⟩
      cases ct with
      | malformed t => simp [decrypt_value] at hs
      | encoded blob =>
        cases blob with
        | corrupt t => simp [decrypt_value] at hs
        | envelope rs payload =>
          by_cases hmem : i.toPublic ∈ rs
          · cases payload with
            | utf8 p => exact ⟨rs, p, rfl, hmem⟩
            | invalid t => simp [decrypt_value, hmem] at hs
          · simp [decrypt_value, hmem] at hs
    · rintro ⟨rs, p, rfl, hmem⟩
      exact ⟨p, by simp [decrypt_value, hmem]⟩

theorem C2_decrypt_error_kinds_witness :
    decrypt_value (.malformed 0) ⟨"k"⟩ = .error (.message badB64Msg) ∧
    decrypt_value (.encoded (.envelope [⟨"age1other"⟩] (.utf8 "v"))) ⟨"k"⟩ =
      .error (.message (decryptErrPrefix ++ ageNoMatchDetail)) ∧
    decrypt_value (.encoded (.envelope [⟨"age1k"⟩] (.invalid 0))) ⟨"k"⟩ =
      .error (.message badUtf8Msg) := by
  obtain ⟨h1, h2, h3, h4, h5, h6⟩ := C2_decrypt_error_kinds ⟨"k"⟩
  exact ⟨h1 0, h3 _ _ (by decide), h4 _ 0 (by decide)⟩

/-- C3: `encrypt_value` fails (producing no ciphertext) exactly when the
recipient list is empty — for every plaintext — and `cmd_set` on a document
whose team roster yields zero recipients refuses to encrypt, leaving the
state unchanged. -/
theorem C3_encrypt_empty_recipients :
    (∀ (p : String) (rs : List Recipient),
      (∃ e, encrypt_value p rs = .error e) ↔ rs = [])
    ∧ ∀ (file : EnvkeyFile) (id : X25519Identity)
        (key value username now : String),
        file.version = FORMAT_VERSION → validate_secret_key key = .ok () →
        file.team = [] →
        cmd_set "default" key value username now
            ⟨some (.parsed file), .valid id⟩ =
          { state := ⟨some (.parsed file), .valid id⟩
            result := .error (.message
              "no team recipients found in .envkey; cannot encrypt") } := by
  constructor
  · intro p rs
    cases rs with
    | nil => simp [encrypt_value]
    | cons r rs' => simp [encrypt_value]
  · intro file id key value username now hv hk hteam
    simp [cmd_set, cmd_set_pre, require_m1_env_default, hk,
      read_envkey_parsed file hv, load_identity_valid,
      parse_recipients_from_team, hteam, smapValues, collect_recipients]

theorem C3_encrypt_empty_recipients_witness :
    ((∃ e, encrypt_value "secret" ([] : List Recipient) = .error e) ↔
      ([] : List Recipient) = []) ∧
    cmd_set "default" "API_KEY" "secret" "alice" "t"
        ⟨some (.parsed ⟨1, [], [("default", [])]⟩), .valid ⟨"k"⟩⟩ =
      { state := ⟨some (.parsed ⟨1, [], [("default", [])]⟩), .valid ⟨"k"⟩⟩
        result := .error (.message
          "no team recipients found in .envkey; cannot encrypt") } :=
  ⟨C3_encrypt_empty_recipients.1 "secret" [],
    C3_encrypt_empty_recipients.2 ⟨1, [], [("default", [])]⟩ ⟨"k"⟩
      "API_KEY" "secret" "alice" "t" rfl rfl rfl⟩

/-- Written from the spec's words for the refinement claim C4: the regular
language `[A-Z_][A-Z0-9_]*` — non-empty, first character an ASCII uppercase
letter or underscore, remaining characters ASCII uppercase letters, digits,
or underscores. -/
def keyLangAux : List Char → Bool
  | [] => false
  | c :: cs =>
    (c = '_' || ('A' ≤ c && c ≤ 'Z')) &&
      cs.all fun d => d = '_' || ('A' ≤ d && d ≤ 'Z') || ('0' ≤ d && d ≤ '9')

def matchesKeyLang (key : String) : Bool :=
  keyLangAux key.toList

/-- C4: `validate_secret_key` accepts a key exactly when it matches
`[A-Z_][A-Z0-9_]*`; `DATABASE_URL` and `_TOKEN_1` are accepted while
`database_url`, `1DATABASE` and `API-KEY` are rejected. -/
theorem C4_validate_secret_key :
    (∀ k, validate_secret_key k = .ok () ↔ matchesKeyLang k = true)
    ∧ validate_secret_key "DATABASE_URL" = .ok ()
    ∧ validate_secret_key "_TOKEN_1" = .ok ()
    ∧ (∃ e, validate_secret_key "database_url" = .error e)
    ∧ (∃ e, validate_secret_key "1DATABASE" = .error e)
    ∧ (∃ e, validate_secret_key "API-KEY" = .error e) := by
  refine ⟨?_, rfl, rfl,
    ⟨.message "invalid secret key `database_url`: must start with A-Z or _", rfl⟩,
    ⟨.message "invalid secret key `1DATABASE`: must start with A-Z or _", rfl⟩,
    ⟨.message "invalid secret key `API-KEY`: use only A-Z, 0-9, _", rfl⟩⟩
  intro k
  unfold validate_secret_key matchesKeyLang
  cases h : k.toList with
  | nil => simp [keyLangAux]
  | cons c cs =>
    cases hb1 : (c = '_' || ('A' ≤ c && c ≤ 'Z')) <;>
      cases hb2 : (cs.all fun d =>
          d = '_' || ('A' ≤ d && d ≤ 'Z') || ('0' ≤ d && d ≤ '9')) <;>
      simp [validate_key_chars, keyLangAux, hb1, hb2]

/-- C5: `ensure_supported_version` succeeds exactly on the supported format
version; every other version fails with a message naming the found and the
supported version (and, returning only `Result<()>`, never alters the
document). -/
theorem C5_version_guard (f : EnvkeyFile) :
    (f.ensure_supported_version = .ok () ↔ f.version = FORMAT_VERSION)
    ∧ (f.version ≠ FORMAT_VERSION →
        f.ensure_supported_version = .error (.message
          ("unsupported .envkey version: " ++ toString f.version ++
            " (supported: " ++ toString FORMAT_VERSION ++ ")"))) := by
  by_cases h : f.version = FORMAT_VERSION <;>
    simp [EnvkeyFile.ensure_supported_version, h]

theorem C5_version_guard_witness :
    (EnvkeyFile.ensure_supported_version ⟨99, [], []⟩ = .ok () ↔
      (99 : Nat) = FORMAT_VERSION) ∧
    EnvkeyFile.ensure_supported_version ⟨99, [], []⟩ =
      .error (.message "unsupported .envkey version: 99 (supported: 1)") :=
  ⟨(C5_version_guard ⟨99, [], []⟩).1,
    (C5_version_guard ⟨99, [], []⟩).2 (by decide)⟩

/-- A document whose team already holds the public key of the identity
`⟨"alicekey"⟩` (encoding `age1alicekey`) — but under the member name `bob`,
not under the acting username `alice`. -/
def docPubkeyPresent : EnvkeyFile :=
  ⟨1, [("bob", ⟨"age1alicekey", .admin, "2026-01-01", none⟩)], [("default", [])]⟩

def stPubkeyPresent : VaultState :=
  ⟨some (.parsed docPubkeyPresent), .valid ⟨"alicekey"⟩⟩

/-- C6 counterexample: the bootstrap checks membership by *username*
(`file.team.contains_key(&username)`), not by public key.  Here the current
identity's public key is already present among the team members (under name
`bob`), yet `cmd_init` mutates the document, adding a second entry with the
same public key and reporting "Added alice" rather than "already exists". -/
theorem C6_counterexample :
    (X25519Identity.toPublic ⟨"alicekey"⟩).enc ∈
      (smapValues docPubkeyPresent.team).map TeamMember.pubkey ∧
    (cmd_init false stPubkeyPresent "alice" ⟨"freshkey"⟩ "2026-01-02").state ≠
      stPubkeyPresent ∧
    (cmd_init false stPubkeyPresent "alice" ⟨"freshkey"⟩ "2026-01-02").result =
      .ok ["✓ Using existing identity key",
        "✓ Added alice as admin in existing .envkey",
        "✓ Public key: age1alicekey"] :=
  ⟨by decide, by decide, rfl⟩

/-- C6 amended: during init bootstrap against an existing document, membership
is decided by the acting *username* (the team-map key): when the username is
absent a new Admin entry for it is added and the document rewritten; when the
username is present the document is unchanged and ".envkey already exists" is
reported; running the bootstrap twice with the same username and identity is
idempotent. -/
theorem C6_init_membership_by_username (file : EnvkeyFile)
    (id fresh fresh2 : X25519Identity) (username today today2 : String)
    (hv : file.version = FORMAT_VERSION) :
    (smapContains file.team username = true →
      cmd_init false ⟨some (.parsed file), .valid id⟩ username fresh today =
        { state := ⟨some (.parsed file), .valid id⟩
          result := .ok ["✓ Using existing identity key",
            "✓ .envkey already exists",
            "✓ Public key: " ++ id.toPublic.enc] })
    ∧ (smapContains file.team username = false →
      (cmd_init false ⟨some (.parsed file), .valid id⟩
          username fresh today).state =
        ⟨some (.parsed { file with team := smapInsert file.team username (TeamMember.mk id.toPublic.enc Role.admin today none) }), .valid id⟩)
    ∧ cmd_init false
        (cmd_init false ⟨some (.parsed file), .valid id⟩
          username fresh today).state username fresh2 today2 =
      { state := (cmd_init false ⟨some (.parsed file), .valid id⟩
            username fresh today).state
        result := .ok ["✓ Using existing identity key",
          "✓ .envkey already exists",
          "✓ Public key: " ++ id.toPublic.enc] } := by
  have hrun := cmd_init_existing_run file id fresh username today hv
  refine ⟨?_, ?_, ?_⟩
  · intro hc
    simp [hrun, hc]
  · intro hc
    simp [hrun, hc]
  · cases hc : smapContains file.team username with
    | true =>
      have hrun2 := cmd_init_existing_run file id fresh2 username today2 hv
      simp [hrun, hc, hrun2]
    | false =>
      have hc' := smapContains_insert_self file.team username
        (TeamMember.mk id.toPublic.enc Role.admin today none)
      have hrun2 := cmd_init_existing_run
        { file with team := smapInsert file.team username (TeamMember.mk id.toPublic.enc Role.admin today none) }
        id fresh2 username today2 hv
      simp [hrun, hc, hrun2, hc']

theorem C6_init_membership_by_username_witness :
    (smapContains docPubkeyPresent.team "bob" = true →
      cmd_init false ⟨some (.parsed docPubkeyPresent), .valid ⟨"alicekey"⟩⟩
          "bob" ⟨"freshkey"⟩ "2026-01-02" =
        { state := ⟨some (.parsed docPubkeyPresent), .valid ⟨"alicekey"⟩⟩
          result := .ok ["✓ Using existing identity key",
            "✓ .envkey already exists",
            "✓ Public key: " ++ (X25519Identity.toPublic ⟨"alicekey"⟩).enc] }) ∧
    smapContains docPubkeyPresent.team "bob" = true :=
  ⟨(C6_init_membership_by_username docPubkeyPresent ⟨"alicekey"⟩ ⟨"freshkey"⟩
      ⟨"freshkey"⟩ "bob" "2026-01-02" "2026-01-03" rfl).1, by decide⟩

/-- A document whose only team member is `bob` with a valid public key that is
*not* the public key of the acting identity `⟨"alicekey"⟩`. -/
def bobOnlyDoc : EnvkeyFile :=
  ⟨1, [("bob", ⟨"age1bobkey", .admin, "2026-01-01", none⟩)], [("default", [])]⟩

/-- C7 counterexample: when the post-write self-check decryption fails,
`cmd_set` surfaces exactly the ordinary decrypt-failure error — the same
`"failed to decrypt value"` message an ordinary `cmd_get` on the freshly
written state reports — not a distinct internal-consistency error kind. -/
theorem C7_counterexample :
    (cmd_set "default" "API_KEY" "v" "alice" "t"
        ⟨some (.parsed bobOnlyDoc), .valid ⟨"alicekey"⟩⟩).result =
      .error (.message (decryptErrPrefix ++ ageNoMatchDetail)) ∧
    (cmd_get "default" "API_KEY"
        (cmd_set "default" "API_KEY" "v" "alice" "t"
          ⟨some (.parsed bobOnlyDoc), .valid ⟨"alicekey"⟩⟩).state).result =
      .error (.message (decryptErrPrefix ++ ageNoMatchDetail)) :=
  ⟨rfl, rfl⟩

/-- C7 amended: after persisting the new entry, `cmd_set` immediately decrypts
it with the current local identity; when that self-check fails the command
aborts, but the failure is reported with the ordinary decrypt-failure error
(identical to the one `cmd_get` reports), while the distinct
"internal error: secret missing after write" kind is reserved for the entry
being absent after the write.  The write itself has already happened. -/
theorem C7_selfcheck_ordinary_error (file : EnvkeyFile) (id : X25519Identity)
    (key value username now : String) (rs : List Recipient)
    (hv : file.version = FORMAT_VERSION)
    (hk : validate_secret_key key = .ok ())
    (hr : parse_recipients_from_team file = .ok rs)
    (hne : rs ≠ [])
    (hmem : id.toPublic ∉ rs) :
    cmd_set "default" key value username now ⟨some (.parsed file), .valid id⟩ =
      { state := ⟨some (.parsed (set_update file key (.encoded (.envelope rs (.utf8 value))) username now)), .valid id⟩
        result := .error (.message (decryptErrPrefix ++ ageNoMatchDetail)) } := by
  rw [cmd_set_run file id key value username now rs hv hk hr hne, if_neg hmem]

theorem C7_selfcheck_ordinary_error_witness :
    cmd_set "default" "API_KEY" "v" "alice" "t"
        ⟨some (.parsed bobOnlyDoc), .valid ⟨"alicekey"⟩⟩ =
      { state := ⟨some (.parsed (set_update bobOnlyDoc "API_KEY" (.encoded (.envelope [⟨"age1bobkey"⟩] (.utf8 "v"))) "alice" "t")), .valid ⟨"alicekey"⟩⟩
        result := .error (.message (decryptErrPrefix ++ ageNoMatchDetail)) } :=
  C7_selfcheck_ordinary_error bobOnlyDoc ⟨"alicekey"⟩ "API_KEY" "v" "alice"
    "t" [⟨"age1bobkey"⟩] rfl rfl rfl (by decide) (by decide)

/-- C8: with `force` set while a vault document exists, `cmd_init` fails with
the blocking error before any identity work, and neither the document nor the
identity file changes. -/
theorem C8_force_blocked (st : VaultState) (username today : String)
    (fresh : X25519Identity) (h : st.envkey.isSome = true) :
    cmd_init true st username fresh today =
      { state := st
        result := .error (.message
          "--force is blocked when .envkey already exists; remove .envkey first in M1") } := by
  simp [cmd_init, h]

theorem C8_force_blocked_witness :
    cmd_init true ⟨some (.parsed ⟨1, [], []⟩), .valid ⟨"k"⟩⟩ "alice" ⟨"f"⟩
        "2026-01-02" =
      { state := ⟨some (.parsed ⟨1, [], []⟩), .valid ⟨"k"⟩⟩
        result := .error (.message
          "--force is blocked when .envkey already exists; remove .envkey first in M1") } :=
  C8_force_blocked ⟨some (.parsed ⟨1, [], []⟩), .valid ⟨"k"⟩⟩ "alice"
    "2026-01-02" ⟨"f"⟩ rfl

/-- C9: when any team member's pubkey fails to parse as an x25519 recipient,
`cmd_set` fails with an "invalid team public key" error naming some failing
member's pubkey and stores nothing (the state is unchanged), even when other
members' keys are valid. -/
theorem C9_invalid_team_pubkey (file : EnvkeyFile) (id : X25519Identity)
    (key value username now : String) (m : TeamMember)
    (hv : file.version = FORMAT_VERSION)
    (hk : validate_secret_key key = .ok ())
    (hm : m ∈ smapValues file.team)
    (hp : parse_x25519_recipient m.pubkey = none) :
    ∃ m', m' ∈ smapValues file.team ∧
      parse_x25519_recipient m'.pubkey = none ∧
      cmd_set "default" key value username now
          ⟨some (.parsed file), .valid id⟩ =
        { state := ⟨some (.parsed file), .valid id⟩
          result := .error (.message
            ("invalid team public key " ++ m'.pubkey ++ ": parse error")) } := by
  obtain ⟨m', h1, h2, h3⟩ :=
    collect_recipients_invalid (smapValues file.team) m hm hp
  refine ⟨m', h1, h2, ?_⟩
  simp [cmd_set, cmd_set_pre, require_m1_env_default, hk,
    read_envkey_parsed file hv, load_identity_valid,
    parse_recipients_from_team, h3]

/-- A document mixing one unparseable pubkey (`bob`) with one valid one
(`carol`). -/
def docBadPubkey : EnvkeyFile :=
  ⟨1, [("bob", ⟨"bogus", .admin, "d", none⟩),
       ("carol", ⟨"age1carolkey", .admin, "d", none⟩)], [("default", [])]⟩

theorem C9_invalid_team_pubkey_witness :
    ∃ m', m' ∈ smapValues docBadPubkey.team ∧
      parse_x25519_recipient m'.pubkey = none ∧
      cmd_set "default" "API_KEY" "v" "alice" "t"
          ⟨some (.parsed docBadPubkey), .valid ⟨"k"⟩⟩ =
        { state := ⟨some (.parsed docBadPubkey), .valid ⟨"k"⟩⟩
          result := .error (.message
            ("invalid team public key " ++ m'.pubkey ++ ": parse error")) } :=
  C9_invalid_team_pubkey docBadPubkey ⟨"k"⟩ "API_KEY" "v" "alice" "t"
    ⟨"bogus", .admin, "d", none⟩ rfl rfl (by decide) (by decide)

/-- C10: on a document with no `"default"` environment, `default_env_mut`
inserts an empty default environment (and hands it out) so `cmd_set`
succeeds, while `default_env` returns `none` so `cmd_get` fails with the
"default environment not found" error — the two accessors are asymmetric. -/
theorem C10_missing_default_env (file : EnvkeyFile) (id : X25519Identity)
    (key value username now : String) (rs : List Recipient)
    (hd : smapFind? file.environments "default" = none)
    (hv : file.version = FORMAT_VERSION)
    (hk : validate_secret_key key = .ok ())
    (hr : parse_recipients_from_team file = .ok rs)
    (hne : rs ≠ [])
    (hmem : id.toPublic ∈ rs) :
    file.default_env_mut =
      ({ file with environments := smapInsert file.environments "default" [] },
        ([] : SMap SecretEntry))
    ∧ file.default_env = none
    ∧ (cmd_set "default" key value username now
        ⟨some (.parsed file), .valid id⟩).result =
      .ok [encryptedLine key rs "default"]
    ∧ (cmd_get "default" key ⟨some (.parsed file), .valid id⟩).result =
      .error (.message "default environment not found in .envkey") := by
  refine ⟨?_, ?_, ?_, ?_⟩
  · simp [EnvkeyFile.default_env_mut, smapGetD, hd]
  · simp [EnvkeyFile.default_env, hd]
  · simp [cmd_set_run file id key value username now rs hv hk hr hne, hmem]
  · simp [cmd_get, require_m1_env_default, read_envkey_parsed file hv,
      load_identity_valid, EnvkeyFile.default_env, hd]

/-- A document with a valid single-member team and no `"default"` (indeed no)
environment. -/
def docNoDefault : EnvkeyFile :=
  ⟨1, [("alice", ⟨"age1alicekey", .admin, "d", none⟩)], []⟩

theorem C10_missing_default_env_witness :
    EnvkeyFile.default_env_mut docNoDefault =
      ({ docNoDefault with environments := smapInsert docNoDefault.environments "default" [] },
        ([] : SMap SecretEntry))
    ∧ EnvkeyFile.default_env docNoDefault = none
    ∧ (cmd_set "default" "API_KEY" "v" "alice" "t"
        ⟨some (.parsed docNoDefault), .valid ⟨"alicekey"⟩⟩).result =
      .ok [encryptedLine "API_KEY" [⟨"age1alicekey"⟩] "default"]
    ∧ (cmd_get "default" "API_KEY"
        ⟨some (.parsed docNoDefault), .valid ⟨"alicekey"⟩⟩).result =
      .error (.message "default environment not found in .envkey") :=
  C10_missing_default_env docNoDefault ⟨"alicekey"⟩ "API_KEY" "v" "alice" "t"
    [⟨"age1alicekey"⟩] rfl rfl rfl rfl (by decide) (by decide)

end Envkey
